import Mathlib

/-!
Verification of the statistical post-processing core of the
streamlit-metabolomics-statistics repository.

The repository's statistics pipelines live in `src/src/anova.py`,
`src/src/ttest.py` and `src/pages/1_Data_Preparation.py`.  P-values are
modelled as rationals (`ℚ`); the third-party pingouin routines that the
code calls (`pg.multicomp`, `pg.ttest`, `pg.pairwise_tukey`) are not part
of the repository, so they are modelled here from their documented
behaviour, which the spec restates.  Everything downstream of those calls
(insertion of corrected columns, significance flags, sorting, filtering,
sample selection) is translated directly from the Python source.
-/

namespace MetaboStats

/-- Models `pg.multicomp(pvals, method="bonf")[1]` as called at
`src/src/anova.py:22`, `src/src/anova.py:130` and `src/src/ttest.py:22`.
Modelled from the spec: pingouin is a third-party dependency whose source
is not in the repository; the spec (§4.5) gives the Bonferroni rule
`corrected_i = min(1, p_i * n)` with `n` the number of p-values in the
batch, which is pingouin's documented behaviour (multiply by the number
of tests, clip at 1). -/
def multicomp_bonf (ps : List ℚ) : List ℚ :=
  ps.map (fun p => min 1 (p * ps.length))

/-- One row of the raw ANOVA result built by `gen_anova_data`
(`src/src/anova.py:9-16`): metabolite name, raw p-value, F statistic. -/
structure AnovaRow where
  metabolite : String
  p : ℚ
  F : ℚ
  deriving Repr, DecidableEq

/-- One row of the ANOVA result after `add_bonferroni_to_anova`
(`src/src/anova.py:19-28`): the raw columns plus the Bonferroni-corrected
p-value and the boolean significance flag. -/
structure AnovaRowC where
  metabolite : String
  p : ℚ
  p_bonferroni : ℚ
  significant : Bool
  F : ℚ
  deriving Repr, DecidableEq

instance : DecidableRel (fun a b : AnovaRowC => a.p ≤ b.p) :=
  fun _ _ => inferInstance

instance : IsTotal AnovaRowC (fun a b => a.p ≤ b.p) :=
  ⟨fun a b => le_total a.p b.p⟩

instance : IsTrans AnovaRowC (fun a b => a.p ≤ b.p) :=
  ⟨fun _ _ _ hab hbc => le_trans hab hbc⟩

/-- The column-insertion part of `add_bonferroni_to_anova`
(`src/src/anova.py:21-25`): zip the rows with the Bonferroni-corrected
column `pg.multicomp(df["p"], method="bonf")[1]` and with the significance
column `df["p_bonferroni"] < 0.05`. -/
def anova_corrected (df : List AnovaRow) : List AnovaRowC :=
  (df.zip (multicomp_bonf (df.map (·.p)))).map
    (fun rp => ⟨rp.1.metabolite, rp.1.p, rp.2, decide (rp.2 < 1/20), rp.1.F⟩)

/-- Function `add_bonferroni_to_anova` (`src/src/anova.py:19-28`): insert the
corrected p-value and significance columns, then `df.sort_values("p")`,
i.e. sort ascending by the raw p-value.  pandas' default
`kind="quicksort"` is not documented to be stable, so the order of rows
with equal keys is no program guarantee; `List.insertionSort` is only a
concrete executable stand-in, and the general theorems below use nothing
about it beyond sortedness and being a permutation. -/
def add_bonferroni_to_anova (df : List AnovaRow) : List AnovaRowC :=
  List.insertionSort (fun a b => a.p ≤ b.p) (anova_corrected df)

/-- One row of the raw Tukey result built by `gen_pairwise_tukey`
(`src/src/anova.py:110-123`): metabolite, mean difference, raw p-value,
attribute name and the two compared group labels with their means. -/
structure TukeyRow where
  stats_metabolite : String
  diff : ℚ
  stats_p : ℚ
  attr : String
  A : String
  B : String
  meanA : ℚ
  meanB : ℚ
  deriving Repr, DecidableEq

/-- One row of the Tukey result after `add_bonferroni_to_tukeys`
(`src/src/anova.py:126-136`). -/
structure TukeyRowC where
  stats_metabolite : String
  diff : ℚ
  stats_p : ℚ
  stats_p_bonferroni : ℚ
  stats_significant : Bool
  attr : String
  A : String
  B : String
  meanA : ℚ
  meanB : ℚ
  deriving Repr, DecidableEq

instance : DecidableRel (fun a b : TukeyRowC => a.stats_p ≤ b.stats_p) :=
  fun _ _ => inferInstance

instance : IsTotal TukeyRowC (fun a b => a.stats_p ≤ b.stats_p) :=
  ⟨fun a b => le_total a.stats_p b.stats_p⟩

instance : IsTrans TukeyRowC (fun a b => a.stats_p ≤ b.stats_p) :=
  ⟨fun _ _ _ hab hbc => le_trans hab hbc⟩

/-- The column-insertion part of `add_bonferroni_to_tukeys`
(`src/src/anova.py:127-133`): insert
`pg.multicomp(tukey["stats_p"], method="bonf")[1]` and the significance
column `tukey["stats_p_bonferroni"] < 0.05`. -/
def tukeys_corrected (tk : List TukeyRow) : List TukeyRowC :=
  (tk.zip (multicomp_bonf (tk.map (·.stats_p)))).map
    (fun rp => ⟨rp.1.stats_metabolite, rp.1.diff, rp.1.stats_p, rp.2,
                decide (rp.2 < 1/20), rp.1.attr, rp.1.A, rp.1.B,
                rp.1.meanA, rp.1.meanB⟩)

/-- Function `add_bonferroni_to_tukeys` (`src/src/anova.py:126-136`): insert the
corrected columns, then `tukey.sort_values("stats_p")`, i.e. sort
ascending by the raw p-value.  As for the ANOVA table, pandas' default
quicksort gives no tie-order guarantee; `List.insertionSort` is only a
concrete executable stand-in, and the general theorems below use nothing
about it beyond sortedness and being a permutation. -/
def add_bonferroni_to_tukeys (tk : List TukeyRow) : List TukeyRowC :=
  List.insertionSort (fun a b => a.stats_p ≤ b.stats_p) (tukeys_corrected tk)

/-- One row of the per-metabolite t-test concatenation in
`gen_ttest_data` (`src/src/ttest.py:11-20`), reduced to the columns the
post-processing reads: metabolite name and raw p-value `p-val`. -/
structure TtestRow where
  metabolite : String
  p_val : ℚ
  deriving Repr, DecidableEq

/-- One row of the t-test result after the column insertions of
`gen_ttest_data` (`src/src/ttest.py:22-24`). -/
structure TtestRowC where
  metabolite : String
  p_val : ℚ
  p_bonf : ℚ
  significance : Bool
  deriving Repr, DecidableEq

instance : DecidableRel (fun a b : TtestRowC => a.p_bonf ≤ b.p_bonf) :=
  fun _ _ => inferInstance

instance : IsTotal TtestRowC (fun a b => a.p_bonf ≤ b.p_bonf) :=
  ⟨fun a b => le_total a.p_bonf b.p_bonf⟩

instance : IsTrans TtestRowC (fun a b => a.p_bonf ≤ b.p_bonf) :=
  ⟨fun _ _ _ hab hbc => le_trans hab hbc⟩

/-- The column-insertion part of `gen_ttest_data`
(`src/src/ttest.py:22-24`): insert
`pg.multicomp(ttest["p-val"], method="bonf")[1]` as `p-bonf` and the
significance column `ttest["p-bonf"] < 0.05`. -/
def ttest_corrected (rows : List TtestRow) : List TtestRowC :=
  (rows.zip (multicomp_bonf (rows.map (·.p_val)))).map
    (fun rp => ⟨rp.1.metabolite, rp.1.p_val, rp.2, decide (rp.2 < 1/20)⟩)

/-- The tail of `gen_ttest_data` (`src/src/ttest.py:22-29`): insert the
corrected columns, then `return ttest.sort_values("p-bonf")` — note the
sort key is the corrected column `p-bonf`, not the raw `p-val`.
pandas' default quicksort gives no tie-order guarantee;
`List.insertionSort` is only a concrete executable stand-in, and the
general theorems below use nothing about it beyond sortedness and being
a permutation (the concrete 2-element counterexample is discussed at its
statement). -/
def ttest_postprocess (rows : List TtestRow) : List TtestRowC :=
  List.insertionSort (fun a b => a.p_bonf ≤ b.p_bonf) (ttest_corrected rows)

/-- Arithmetic mean of a list of rationals (`0` for the empty list,
mirroring that pingouin would produce NaN there; the theorems only use it
on nonempty groups). -/
def lmean (xs : List ℚ) : ℚ := xs.sum / xs.length

/-- Unbiased sample variance with Bessel's correction (denominator
`n - 1`), as used by scipy/pingouin inside the t-test. -/
def svar (xs : List ℚ) : ℚ :=
  ((xs.map (fun x => (x - lmean xs) ^ 2)).sum) / ((xs.length : ℚ) - 1)

/-- The Welch–Satterthwaite degrees of freedom for two samples, the value
pingouin uses for the unequal-variance (Welch) t-test. -/
def welch_dof (x y : List ℚ) : ℚ :=
  let vx := svar x
  let vy := svar y
  let nx : ℚ := x.length
  let ny : ℚ := y.length
  (vx / nx + vy / ny) ^ 2 /
    ((vx / nx) ^ 2 / (nx - 1) + (vy / ny) ^ 2 / (ny - 1))

/-- The shape of one pingouin t-test result that the claims depend on:
which test was actually run (paired / Welch-corrected) and its degrees of
freedom.  The statistic and the p-value itself come from the
t-distribution CDF and are not modelled numerically. -/
structure TtestRes where
  dof : ℚ
  welch : Bool
  paired : Bool
  deriving Repr, DecidableEq

/-- Models `pg.ttest(x, y, paired=paired)` as called at
`src/src/ttest.py:15`.  pingouin is a third-party dependency whose source
is not in the repository; this models its documented behaviour:
if `paired=True` but the two samples have unequal sizes, pingouin emits a
warning ("x and y have unequal sizes. Switching to paired == False.") and
runs the unpaired test instead — it does not raise; with the default
`correction="auto"`, the Welch (unequal-variance) correction is applied
if and only if the two sample sizes are unequal (Zimmerman 2004), so two
equal-sized groups get the standard Student t-test with pooled degrees of
freedom `nx + ny - 2`.  The repository code defines no exception class of
its own and wraps this call in no error handling. -/
def pg_ttest (x y : List ℚ) (paired : Bool) : TtestRes :=
  let paired := paired && (x.length == y.length)
  if paired then
    ⟨(x.length : ℚ) - 1, false, true⟩
  else if x.length = y.length then
    ⟨(x.length : ℚ) + (y.length : ℚ) - 2, false, false⟩
  else
    ⟨welch_dof x y, true, false⟩

/-- The Streamlit session state read inside the cached statistics
functions: `st.session_state.data` (one intensity list per metabolite,
aligned sample-wise with the metadata) and `st.session_state.md` (one
association list of attribute/value pairs per sample). -/
structure SessionState where
  data : List (String × List ℚ)
  md : List (List (String × String))
  deriving Repr, DecidableEq

/-- One metadata column: `df[ttest_attribute]` — the value of the given
attribute for each sample (empty string when absent, mirroring a NaN). -/
def md_column (md : List (List (String × String))) (a : String) : List String :=
  md.map (fun row => (((row.find? (fun p => p.1 == a)).map (·.2)).getD ""))

/-- Group selection `df[col][df[ttest_attribute] == g]` (`src/src/ttest.py:13-14`): the
intensities of the samples whose attribute value equals `g`. -/
def select_group (vals : List ℚ) (attrs : List String) (g : String) : List ℚ :=
  ((attrs.zip vals).filter (fun p => p.1 == g)).map (·.2)

/-- The statistical core of `gen_ttest_data` (`src/src/ttest.py:8-18`),
decorated `@st.cache_data` in the source: its memoization key is exactly
the explicit parameters `(ttest_attribute, target_groups, paired)`, while
the body reads `st.session_state.data` and `st.session_state.md`, which
are therefore modelled as an extra argument that the cache key does not
see.  For each metabolite column, select the two groups' intensity
vectors and run `pg.ttest`. -/
def gen_ttest_data (state : SessionState) (ttest_attribute : String)
    (target_groups : String × String) (paired : Bool) :
    List (String × TtestRes) :=
  let attrs := md_column state.md ttest_attribute
  state.data.map (fun cv =>
    (cv.1, pg_ttest (select_group cv.2 attrs target_groups.1)
                    (select_group cv.2 attrs target_groups.2) paired))

/-- All unordered pairs (first component occurring earlier in the list). -/
def pairs_of : List String → List (String × String)
  | [] => []
  | a :: rest => (rest.map (fun b => (a, b))) ++ pairs_of rest

/-- Models the group-label pairs of `pg.pairwise_tukey(df, dv=metabolite,
between=attribute)` as called at `src/src/anova.py:113`: pingouin (a
third-party dependency, not in the repository) produces one contrast row
per unordered pair of distinct levels of the `between` column present in
the data; the numeric columns (diff, p-tukey, means) come from the
studentized range distribution and are not modelled numerically.  Row `0`
of the pingouin result corresponds to the head of this list. -/
def pairwise_tukey_pairs (levels : List String) : List (String × String) :=
  pairs_of levels.dedup

/-- One row of the Tukey output of `tukey` restricted to the columns the
level-restriction claim is about: metabolite and the two compared group
labels `A`, `B` (`src/src/anova.py:114-123`). -/
structure TukeyLabelRow where
  stats_metabolite : String
  A : String
  B : String
  deriving Repr, DecidableEq

/-- Function `tukey` (`src/src/anova.py:139-166`), label part.  `df` is the ANOVA
result table; `samples` holds, for each sample (a row of the joined
`data`/`md` frame), its attribute value and its intensities; `elements`
is the user-chosen list of levels.  The code keeps the metabolites
flagged significant, restricts the samples to the rows whose attribute
value is in `elements` (`data[data[attribute].isin(elements)]`,
line 149) and only then runs `pg.pairwise_tukey` per metabolite, taking
row 0 (`tukey.loc[0, ...]`).  A metabolite yields no row when fewer than
two levels remain (pingouin would raise there; the generator is modelled
as skipping). -/
def tukey (df : List AnovaRowC) (samples : List (String × List ℚ))
    (elements : List String) : List TukeyLabelRow :=
  let significant_metabolites := (df.filter (·.significant)).map (·.metabolite)
  let data := samples.filter (fun s => decide (s.1 ∈ elements))
  significant_metabolites.filterMap (fun m =>
    (pairwise_tukey_pairs (data.map (·.1))).head?.map
      (fun pr => ⟨m, pr.1, pr.2⟩))

/-- The significance-bracket symbol of `ttest_boxplot`
(`src/src/ttest.py:110-118`): chained `if pvalue >= 0.05 / 0.01 / 0.001`
tests on the corrected p-value. -/
def sig_symbol (pvalue : ℚ) : String :=
  if pvalue ≥ 1/20 then "ns"
  else if pvalue ≥ 1/100 then "*"
  else if pvalue ≥ 1/1000 then "**"
  else "***"

/-- The p-value lookup feeding the bracket symbol:
`pvalue = df_ttest.loc[metabolite, "p-bonf"]` (`src/src/ttest.py:110`) —
the *corrected* column of the t-test result table, found by metabolite
index (default `1` models the absent-row case, on which `.loc` would
raise instead). -/
def ttest_boxplot_symbol (df_ttest : List TtestRowC) (metabolite : String) :
    String :=
  sig_symbol ((((df_ttest.find? (fun r => r.metabolite == metabolite)).map
    (·.p_bonf)).getD 1))

/-- Modelled from the spec: `get_cutoff_LOD` lives in `src/cleanup.py`,
which is imported by `src/pages/1_Data_Preparation.py` (line 125) but is
not among the provided sources.  Spec §4.3: the limit of detection is the
global minimum nonzero intensity observed across the whole table
(`0` for a table with no nonzero cell — the spec's degenerate case). -/
def get_cutoff_LOD (ft : List (List ℚ)) : ℚ :=
  match (ft.flatten.filter (fun x => decide (x ≠ 0))) with
  | [] => 0
  | a :: rest => rest.foldl min a

/-- One imputed row: each zero cell is replaced by the RNG draw for its
position, nonzero cells are kept. -/
def impute_row (draw : ℕ → ℚ) : List ℚ → ℕ → List ℚ
  | [], _ => []
  | x :: xs, j => (if x = 0 then draw j else x) :: impute_row draw xs (j + 1)

/-- Row-indexed traversal of the table for imputation. -/
def impute_table (draw : ℕ → ℕ → ℚ) : List (List ℚ) → ℕ → List (List ℚ)
  | [], _ => []
  | row :: rows, i => impute_row (draw i) row 0 :: impute_table draw rows (i + 1)

/-- Modelled from the spec: `impute_missing_values(ft, cutoff_LOD)` lives
in `src/cleanup.py`, which is imported by
`src/pages/1_Data_Preparation.py` (line 137) but is not among the
provided sources.  Spec §4.3: every cell equal to zero is replaced by a
value drawn uniformly from `[0, cutoff_LOD)`; every other cell is
unchanged.  The random draws are modelled by the explicit stream `draw`
(one rational per cell position); the theorems constrain it to
`[0, cutoff_LOD)` as `np.random.uniform(0, cutoff_LOD)` guarantees. -/
def impute_missing_values (ft : List (List ℚ)) (cutoff_LOD : ℚ)
    (draw : ℕ → ℕ → ℚ) : List (List ℚ) :=
  impute_table draw ft 0

/-- The metric `(ft == 0).to_numpy().mean()` (`src/pages/1_Data_Preparation.py:131`):
the fraction of zero cells of a table. -/
def missing_fraction (ft : List (List ℚ)) : ℚ :=
  ((ft.flatten.filter (fun x => decide (x = 0))).length : ℚ) /
    (ft.flatten.length : ℚ)

/-- The imputation block of `src/pages/1_Data_Preparation.py:125-139` in
source order: compute `cutoff_LOD` from the (blank-filtered) table, show
the missing-value percentage of that same table, then rebind `ft` to the
imputed table.  Returns the displayed fraction together with the imputed
table. -/
def data_preparation_impute (ft : List (List ℚ)) (draw : ℕ → ℕ → ℚ) :
    ℚ × List (List ℚ) :=
  let cutoff_LOD := get_cutoff_LOD ft
  let missing := missing_fraction ft
  (missing, impute_missing_values ft cutoff_LOD draw)

/-- One row of the metadata table: its sample identifier (the pandas
index) and its attribute columns. -/
structure MdRow where
  index : String
  attrs : List (String × String)
  deriving Repr, DecidableEq

/-- Metadata cell access `md[col]` for one row (empty string models NaN). -/
def md_lookup (row : MdRow) (col : String) : String :=
  (((row.attrs.find? (fun p => p.1 == col)).map (·.2)).getD "")

/-- The sample selection of `src/pages/1_Data_Preparation.py:78-79`:
`samples = ft[md[md[sample_column] == sample_row].index]` — after
`check_columns` the metadata index and the feature-table columns agree,
so the column list of the `samples` subtable is exactly the index list of
the metadata rows whose `sample_column` value equals `sample_row`. -/
def sample_columns (md : List MdRow) (sample_column sample_row : String) :
    List String :=
  (md.filter (fun r => md_lookup r sample_column == sample_row)).map (·.index)

/-- Definition of `non_samples_md` (`src/pages/1_Data_Preparation.py:91-93`):
`md.loc[[index for index in md.index if index not in samples.columns]]`. -/
def non_samples_md (md : List MdRow) (samples_cols : List String) :
    List MdRow :=
  md.filter (fun r => decide (r.index ∉ samples_cols))

/-- The blank selection of `src/pages/1_Data_Preparation.py:103`:
`blanks = ft[non_samples_md[non_samples_md[blank_column] == blank_row].index]`
— the column list of the `blanks` subtable. -/
def blank_columns (md : List MdRow) (samples_cols : List String)
    (blank_column blank_row : String) : List String :=
  ((non_samples_md md samples_cols).filter
    (fun r => md_lookup r blank_column == blank_row)).map (·.index)

/-! ## Helper lemmas -/

theorem zip_map_self {α β : Type} (l : List α) (g : α → β) :
    l.zip (l.map g) = l.map (fun a => (a, g a)) := by
  induction l with
  | nil => rfl
  | cons a t ih => simp [ih]

theorem anova_corrected_eq (df : List AnovaRow) :
    anova_corrected df = df.map (fun r =>
      ⟨r.metabolite, r.p, min 1 (r.p * df.length),
       decide (min 1 (r.p * df.length) < 1/20), r.F⟩) := by
  simp only [anova_corrected, multicomp_bonf, List.map_map, List.length_map,
    zip_map_self, Function.comp]
  rfl

theorem tukeys_corrected_eq (tk : List TukeyRow) :
    tukeys_corrected tk = tk.map (fun r =>
      ⟨r.stats_metabolite, r.diff, r.stats_p, min 1 (r.stats_p * tk.length),
       decide (min 1 (r.stats_p * tk.length) < 1/20), r.attr, r.A, r.B,
       r.meanA, r.meanB⟩) := by
  simp only [tukeys_corrected, multicomp_bonf, List.map_map, List.length_map,
    zip_map_self, Function.comp]
  rfl

theorem ttest_corrected_eq (rows : List TtestRow) :
    ttest_corrected rows = rows.map (fun r =>
      ⟨r.metabolite, r.p_val, min 1 (r.p_val * rows.length),
       decide (min 1 (r.p_val * rows.length) < 1/20)⟩) := by
  simp only [ttest_corrected, multicomp_bonf, List.map_map, List.length_map,
    zip_map_self, Function.comp]
  rfl

/-! ## Claims -/

/-- C1: for every batch of p-values passed to the Bonferroni correction
step (ANOVA, Tukey, or t-test results), the corrected p-value of each row
equals `min(1, p * n)` where `n` is the number of tests in that exact
batch (the length of the table the correction was run on). -/
theorem C1_bonferroni_batch :
    (∀ (df : List AnovaRow), ∀ r ∈ add_bonferroni_to_anova df,
        r.p_bonferroni = min 1 (r.p * df.length)) ∧
    (∀ (tk : List TukeyRow), ∀ r ∈ add_bonferroni_to_tukeys tk,
        r.stats_p_bonferroni = min 1 (r.stats_p * tk.length)) ∧
    (∀ (rows : List TtestRow), ∀ r ∈ ttest_postprocess rows,
        r.p_bonf = min 1 (r.p_val * rows.length)) := by
  refine ⟨fun df r hr => ?_, fun tk r hr => ?_, fun rows r hr => ?_⟩
  · simp only [add_bonferroni_to_anova, List.mem_insertionSort,
      anova_corrected_eq, List.mem_map] at hr
    obtain ⟨a, -, rfl⟩ := hr
    rfl
  · simp only [add_bonferroni_to_tukeys, List.mem_insertionSort,
      tukeys_corrected_eq, List.mem_map] at hr
    obtain ⟨a, -, rfl⟩ := hr
    rfl
  · simp only [ttest_postprocess, List.mem_insertionSort,
      ttest_corrected_eq, List.mem_map] at hr
    obtain ⟨a, -, rfl⟩ := hr
    rfl

/-- Witness for C1 at a concrete one-row t-test batch. -/
theorem C1_bonferroni_batch_witness :
    (⟨"m", 1/100, 1/100, true⟩ : TtestRowC) ∈ ttest_postprocess [⟨"m", 1/100⟩] ∧
    (⟨"m", 1/100, 1/100, true⟩ : TtestRowC).p_bonf =
      min 1 ((⟨"m", 1/100, 1/100, true⟩ : TtestRowC).p_val *
        ([⟨"m", 1/100⟩] : List TtestRow).length) := by
  have hm : (⟨"m", 1/100, 1/100, true⟩ : TtestRowC) ∈
      ttest_postprocess [⟨"m", 1/100⟩] := by
    norm_num [ttest_postprocess, ttest_corrected, multicomp_bonf,
      List.insertionSort, List.orderedInsert, min_def]
  exact ⟨hm, C1_bonferroni_batch.2.2 [⟨"m", 1/100⟩] _ hm⟩

/-- C2: in every test-result table (ANOVA, Tukey, t-test) the boolean
significance flag is true iff the Bonferroni-corrected p-value is
strictly below 0.05; a corrected p-value of exactly 0.05 is classified
as not significant. -/
theorem C2_significance_iff :
    (∀ (df : List AnovaRow), ∀ r ∈ add_bonferroni_to_anova df,
        (r.significant = true ↔ r.p_bonferroni < 1/20) ∧
        (r.p_bonferroni = 1/20 → r.significant = false)) ∧
    (∀ (tk : List TukeyRow), ∀ r ∈ add_bonferroni_to_tukeys tk,
        (r.stats_significant = true ↔ r.stats_p_bonferroni < 1/20) ∧
        (r.stats_p_bonferroni = 1/20 → r.stats_significant = false)) ∧
    (∀ (rows : List TtestRow), ∀ r ∈ ttest_postprocess rows,
        (r.significance = true ↔ r.p_bonf < 1/20) ∧
        (r.p_bonf = 1/20 → r.significance = false)) := by
  refine ⟨fun df r hr => ?_, fun tk r hr => ?_, fun rows r hr => ?_⟩
  · simp only [add_bonferroni_to_anova, List.mem_insertionSort,
      anova_corrected_eq, List.mem_map] at hr
    obtain ⟨a, -, rfl⟩ := hr
    dsimp only
    refine ⟨by simp [decide_eq_true_eq], fun h => ?_⟩
    simp only [decide_eq_false_iff_not]
    intro hlt
    rw [h] at hlt
    exact lt_irrefl _ hlt
  · simp only [add_bonferroni_to_tukeys, List.mem_insertionSort,
      tukeys_corrected_eq, List.mem_map] at hr
    obtain ⟨a, -, rfl⟩ := hr
    dsimp only
    refine ⟨by simp [decide_eq_true_eq], fun h => ?_⟩
    simp only [decide_eq_false_iff_not]
    intro hlt
    rw [h] at hlt
    exact lt_irrefl _ hlt
  · simp only [ttest_postprocess, List.mem_insertionSort,
      ttest_corrected_eq, List.mem_map] at hr
    obtain ⟨a, -, rfl⟩ := hr
    dsimp only
    refine ⟨by simp [decide_eq_true_eq], fun h => ?_⟩
    simp only [decide_eq_false_iff_not]
    intro hlt
    rw [h] at hlt
    exact lt_irrefl _ hlt

/-- Witness for C2 at a concrete two-row ANOVA batch whose corrected
p-values land exactly on the 0.05 boundary. -/
theorem C2_significance_iff_witness :
    (⟨"m1", 1/40, 1/20, false, 3⟩ : AnovaRowC) ∈
      add_bonferroni_to_anova [⟨"m1", 1/40, 3⟩, ⟨"m2", 1/40, 4⟩] ∧
    (⟨"m1", 1/40, 1/20, false, 3⟩ : AnovaRowC).significant = false := by
  have hm : (⟨"m1", 1/40, 1/20, false, 3⟩ : AnovaRowC) ∈
      add_bonferroni_to_anova [⟨"m1", 1/40, 3⟩, ⟨"m2", 1/40, 4⟩] := by
    norm_num [add_bonferroni_to_anova, anova_corrected, multicomp_bonf,
      List.insertionSort, List.orderedInsert, min_def]
  exact ⟨hm,
    (C2_significance_iff.1 [⟨"m1", 1/40, 3⟩, ⟨"m2", 1/40, 4⟩] _ hm).2
      (by norm_num)⟩

/-- C3 as stated is false on the code: the t-test pipeline returns
`ttest.sort_values("p-bonf")` (`src/src/ttest.py:29`), sorting by the
*corrected* p-value.  Bonferroni clips at 1, so two rows with raw
p-values 0.9 and 0.8 in a 2-test batch both get corrected value 1 and
keep their input order, and the returned table is not sorted by raw
p-value.  On this 2-element batch the model's tie behaviour coincides
with the program's: numpy's default sort runs insertion sort on arrays
this small, and since the two keys compare equal it performs no swap, so
the real pipeline also returns the rows in input order. -/
theorem C3_counterexample :
    ¬ List.Sorted (· ≤ ·)
      ((ttest_postprocess [⟨"m1", 9/10⟩, ⟨"m2", 8/10⟩]).map (·.p_val)) := by
  norm_num [ttest_postprocess, ttest_corrected, multicomp_bonf,
    List.insertionSort, List.orderedInsert, List.Sorted]

/-- C3 (amended): the ANOVA and Tukey result tables are sorted ascending
by the raw p-value; the t-test result table is sorted ascending by the
Bonferroni-corrected p-value `p-bonf`.  Each returned table is a
permutation of the corrected table.  The relative order of rows with
equal sort keys is whatever pandas' default (unstable) quicksort
produces and is not guaranteed, so no tie-order property is stated. -/
theorem C3_sorted_tables :
    (∀ (df : List AnovaRow),
        List.Sorted (fun a b : AnovaRowC => a.p ≤ b.p)
          (add_bonferroni_to_anova df) ∧
        (add_bonferroni_to_anova df).Perm (anova_corrected df)) ∧
    (∀ (tk : List TukeyRow),
        List.Sorted (fun a b : TukeyRowC => a.stats_p ≤ b.stats_p)
          (add_bonferroni_to_tukeys tk) ∧
        (add_bonferroni_to_tukeys tk).Perm (tukeys_corrected tk)) ∧
    (∀ (rows : List TtestRow),
        List.Sorted (fun a b : TtestRowC => a.p_bonf ≤ b.p_bonf)
          (ttest_postprocess rows) ∧
        (ttest_postprocess rows).Perm (ttest_corrected rows)) := by
  refine ⟨fun df => ⟨?_, ?_⟩, fun tk => ⟨?_, ?_⟩, fun rows => ⟨?_, ?_⟩⟩
  · exact List.sorted_insertionSort _ _
  · exact List.perm_insertionSort _ _
  · exact List.sorted_insertionSort _ _
  · exact List.perm_insertionSort _ _
  · exact List.sorted_insertionSort _ _
  · exact List.perm_insertionSort _ _

/-- Components of a pair produced by `pairs_of` are members of the
level list. -/
theorem pairs_of_mem {l : List String} {pr : String × String}
    (h : pr ∈ pairs_of l) : pr.1 ∈ l ∧ pr.2 ∈ l := by
  induction l with
  | nil => simp [pairs_of] at h
  | cons a t ih =>
    simp only [pairs_of, List.mem_append, List.mem_map] at h
    rcases h with ⟨b, hb, rfl⟩ | h
    · exact ⟨List.mem_cons_self a t, List.mem_cons_of_mem a hb⟩
    · exact ⟨List.mem_cons_of_mem a (ih h).1, List.mem_cons_of_mem a (ih h).2⟩

/-- On a duplicate-free level list, `pairs_of` only produces pairs of
distinct levels. -/
theorem pairs_of_ne {l : List String} (hl : l.Nodup) {pr : String × String}
    (h : pr ∈ pairs_of l) : pr.1 ≠ pr.2 := by
  induction l with
  | nil => simp [pairs_of] at h
  | cons a t ih =>
    simp only [pairs_of, List.mem_append, List.mem_map] at h
    rcases h with ⟨b, hb, rfl⟩ | h
    · intro hab
      have hab' : a = b := hab
      exact (List.nodup_cons.mp hl).1 (hab' ▸ hb)
    · exact ih (List.nodup_cons.mp hl).2 h

/-- C4: when the Tukey stage is given an explicit 2-element subset
`[e1, e2]` of the attribute's levels, every row of the returned Tukey
result compares exactly those two levels — the samples are restricted to
the two levels before Tukey HSD is run (`src/src/anova.py:149`), so no
other level can appear even when the attribute has more levels
globally. -/
theorem C4_tukey_two_levels :
    ∀ (df : List AnovaRowC) (samples : List (String × List ℚ))
      (e1 e2 : String), e1 ≠ e2 →
      ∀ row ∈ tukey df samples [e1, e2],
        (row.A = e1 ∧ row.B = e2) ∨ (row.A = e2 ∧ row.B = e1) := by
  intro df samples e1 e2 hne row hrow
  simp only [tukey, List.mem_filterMap, Option.map_eq_some'] at hrow
  obtain ⟨m, -, pr, hhead, rfl⟩ := hrow
  have hmem : pr ∈ pairwise_tukey_pairs
      ((samples.filter (fun s => decide (s.1 ∈ [e1, e2]))).map (·.1)) :=
    List.mem_of_mem_head? (Option.mem_def.mpr hhead)
  rw [pairwise_tukey_pairs] at hmem
  have hnd :=
    List.nodup_dedup ((samples.filter (fun s => decide (s.1 ∈ [e1, e2]))).map (·.1))
  have hprne := pairs_of_ne hnd hmem
  have h1 := (pairs_of_mem hmem).1
  have h2 := (pairs_of_mem hmem).2
  rw [List.mem_dedup] at h1 h2
  obtain ⟨s, hs, hs1⟩ := List.mem_map.mp h1
  obtain ⟨t, ht, ht2⟩ := List.mem_map.mp h2
  have hA : pr.1 ∈ [e1, e2] := by
    have h := of_decide_eq_true (List.mem_filter.mp hs).2
    rwa [hs1] at h
  have hB : pr.2 ∈ [e1, e2] := by
    have h := of_decide_eq_true (List.mem_filter.mp ht).2
    rwa [ht2] at h
  simp only [List.mem_cons, List.mem_singleton, List.not_mem_nil, or_false] at hA hB
  dsimp only
  rcases hA with hA | hA <;> rcases hB with hB | hB
  · exact absurd (hA.trans hB.symm) hprne
  · exact Or.inl ⟨hA, hB⟩
  · exact Or.inr ⟨hA, hB⟩
  · exact absurd (hA.trans hB.symm) hprne

/-- Witness for C4 at a concrete input whose attribute has three levels
globally but only `["A", "B"]` is requested. -/
theorem C4_tukey_two_levels_witness :
    (⟨"m", "A", "B"⟩ : TukeyLabelRow) ∈
      tukey [⟨"m", 1/100, 1/100, true, 5⟩]
        [("A", [1]), ("B", [2]), ("C", [3])] ["A", "B"] ∧
    (((⟨"m", "A", "B"⟩ : TukeyLabelRow).A = "A" ∧
      (⟨"m", "A", "B"⟩ : TukeyLabelRow).B = "B") ∨
     ((⟨"m", "A", "B"⟩ : TukeyLabelRow).A = "B" ∧
      (⟨"m", "A", "B"⟩ : TukeyLabelRow).B = "A")) := by
  have hm : (⟨"m", "A", "B"⟩ : TukeyLabelRow) ∈
      tukey [⟨"m", 1/100, 1/100, true, 5⟩]
        [("A", [1]), ("B", [2]), ("C", [3])] ["A", "B"] := by
    simp [tukey, pairwise_tukey_pairs, pairs_of, List.dedup]
  exact ⟨hm, C4_tukey_two_levels [⟨"m", 1/100, 1/100, true, 5⟩]
    [("A", [1]), ("B", [2]), ("C", [3])] "A" "B" (by simp) _ hm⟩

/-- C5 as stated is false on the code: the repository defines no
`UnequalGroupSizeError` (no exception class of any kind) and wraps
`pg.ttest` in no error handling; on groups of sizes 3 and 4 with
`paired=True`, pingouin warns, switches to unpaired, and the invocation
produces a Welch t-test result row instead of failing. -/
theorem C5_counterexample :
    gen_ttest_data
      ⟨[("m1", [1, 2, 3, 4, 5, 6, 7])],
       [[("g", "A")], [("g", "A")], [("g", "A")], [("g", "B")],
        [("g", "B")], [("g", "B")], [("g", "B")]]⟩
      "g" ("A", "B") true
      = [("m1", ⟨243/49, true, false⟩)] := by
  norm_num +decide [gen_ttest_data, md_column, select_group, pg_ttest,
    welch_dof, svar, lmean, List.filter_cons]

/-- C5 (amended): a paired t-test invocation whose two groups have
different sizes does not fail — pingouin switches the paired flag off
and the invocation behaves exactly as the unpaired one, running a Welch
test (the sizes differ), so a result is produced. -/
theorem C5_paired_unequal_fallback :
    ∀ (x y : List ℚ), x.length ≠ y.length →
      pg_ttest x y true = pg_ttest x y false ∧
      (pg_ttest x y true).paired = false ∧
      (pg_ttest x y true).welch = true := by
  intro x y h
  have hb : (x.length == y.length) = false := by
    simpa using h
  simp [pg_ttest, hb, h]

/-- Witness for C5 at group sizes 3 and 4. -/
theorem C5_paired_unequal_fallback_witness :
    pg_ttest [(1 : ℚ), 2, 3] [4, 5, 6, 7] true
      = pg_ttest [(1 : ℚ), 2, 3] [4, 5, 6, 7] false ∧
    (pg_ttest [(1 : ℚ), 2, 3] [4, 5, 6, 7] true).paired = false ∧
    (pg_ttest [(1 : ℚ), 2, 3] [4, 5, 6, 7] true).welch = true :=
  C5_paired_unequal_fallback [1, 2, 3] [4, 5, 6, 7] (by norm_num)

/-- C6 as stated is false on the code: `pg.ttest` is called with the
default `correction="auto"`, which applies Welch's unequal-variance test
only when the group sizes differ.  With two groups of equal size 2 and
visibly unequal variances, the test actually run is the standard Student
t-test with pooled degrees of freedom 2, not Welch's test (whose
Satterthwaite degrees of freedom here would be 50/41). -/
theorem C6_counterexample :
    gen_ttest_data
      ⟨[("m1", [0, 2, 0, 6])],
       [[("g", "A")], [("g", "A")], [("g", "B")], [("g", "B")]]⟩
      "g" ("A", "B") false
      = [("m1", ⟨2, false, false⟩)] ∧
    welch_dof [0, 2] [0, 6] = 50/41 ∧ ((2 : ℚ) ≠ 50/41) := by
  refine ⟨?_, ?_, by norm_num⟩
  · norm_num +decide [gen_ttest_data, md_column, select_group, pg_ttest,
      welch_dof, svar, lmean, List.filter_cons]
  · norm_num [welch_dof, svar, lmean]

/-- C6 (amended): for every unpaired t-test invocation the per-feature
test is Welch's unequal-variance t-test exactly when the two selected
groups have different sizes (pingouin's `correction="auto"`); when the
sizes are equal the standard Student t-test with pooled degrees of
freedom `nx + ny - 2` is run, whatever the variances.  Every row of
`gen_ttest_data` arises this way from the two selected groups of its
metabolite column. -/
theorem C6_welch_iff_unequal_sizes :
    (∀ (x y : List ℚ), x.length ≠ y.length →
        pg_ttest x y false = ⟨welch_dof x y, true, false⟩) ∧
    (∀ (x y : List ℚ), x.length = y.length →
        pg_ttest x y false
          = ⟨(x.length : ℚ) + (y.length : ℚ) - 2, false, false⟩) ∧
    (∀ (state : SessionState) (a : String) (gs : String × String),
        ∀ pr ∈ gen_ttest_data state a gs false,
          ∃ cv ∈ state.data, pr.1 = cv.1 ∧
            pr.2 = pg_ttest
              (select_group cv.2 (md_column state.md a) gs.1)
              (select_group cv.2 (md_column state.md a) gs.2) false) := by
  refine ⟨fun x y h => ?_, fun x y h => ?_, fun state a gs pr hpr => ?_⟩
  · simp [pg_ttest, h]
  · simp [pg_ttest, h]
  · simp only [gen_ttest_data, List.mem_map] at hpr
    obtain ⟨cv, hcv, rfl⟩ := hpr
    exact ⟨cv, hcv, rfl, rfl⟩

/-- Witness for C6 at the two concrete groups of the counterexample. -/
theorem C6_welch_iff_unequal_sizes_witness :
    pg_ttest [(0 : ℚ), 2] [0, 6] false = ⟨(2 : ℚ) + 2 - 2, false, false⟩ :=
  C6_welch_iff_unequal_sizes.2.1 [0, 2] [0, 6] (by norm_num)

/-- C7: the significance bracket symbol attached to a feature's boxplot
is "ns" for p ≥ 0.05, "*" for 0.01 ≤ p < 0.05, "**" for 0.001 ≤ p <
0.01 and "***" for p < 0.001, and it is computed from the corrected
p-value: `ttest_boxplot` reads `df_ttest.loc[metabolite, "p-bonf"]`. -/
theorem C7_sig_brackets :
    ∀ (p : ℚ),
      (1/20 ≤ p → sig_symbol p = "ns") ∧
      (1/100 ≤ p → p < 1/20 → sig_symbol p = "*") ∧
      (1/1000 ≤ p → p < 1/100 → sig_symbol p = "**") ∧
      (p < 1/1000 → sig_symbol p = "***") ∧
      (∀ (df : List TtestRowC) (m : String) (r : TtestRowC),
          df.find? (fun row => row.metabolite == m) = some r →
          ttest_boxplot_symbol df m = sig_symbol r.p_bonf) := by
  intro p
  refine ⟨fun h => ?_, fun h1 h2 => ?_, fun h1 h2 => ?_, fun h => ?_,
    fun df m r hf => ?_⟩
  · rw [sig_symbol, if_pos h]
  · rw [sig_symbol, if_neg (not_le.mpr h2), if_pos h1]
  · rw [sig_symbol, if_neg (not_le.mpr (h2.trans (by norm_num))),
      if_neg (not_le.mpr h2), if_pos h1]
  · rw [sig_symbol, if_neg (not_le.mpr (h.trans (by norm_num))),
      if_neg (not_le.mpr (h.trans (by norm_num))), if_neg (not_le.mpr h)]
  · simp [ttest_boxplot_symbol, hf]

/-- Witness for C7: a boundary value 0.05 yields "ns", and the symbol
for a concrete result table is computed from its `p-bonf` column. -/
theorem C7_sig_brackets_witness :
    sig_symbol (1/20) = "ns" ∧
    ttest_boxplot_symbol [⟨"m", 3/1000, 1/2, false⟩] "m"
      = sig_symbol ((⟨"m", 3/1000, 1/2, false⟩ : TtestRowC).p_bonf) :=
  ⟨(C7_sig_brackets (1/20)).1 (by norm_num),
   (C7_sig_brackets (1/20)).2.2.2.2 [⟨"m", 3/1000, 1/2, false⟩] "m"
     ⟨"m", 3/1000, 1/2, false⟩ rfl⟩

/-- A fold of `min` over positives starting from a positive is positive. -/
theorem foldl_min_pos {a : ℚ} {l : List ℚ} (ha : 0 < a)
    (hl : ∀ x ∈ l, 0 < x) : 0 < l.foldl min a := by
  induction l generalizing a with
  | nil => exact ha
  | cons b t ih =>
    exact ih (lt_min ha (hl b (List.mem_cons_self b t)))
      (fun x hx => hl x (List.mem_cons_of_mem b hx))

/-- The limit of detection is positive on a table of nonnegative
intensities with at least one nonzero cell. -/
theorem get_cutoff_LOD_pos {ft : List (List ℚ)}
    (hnn : ∀ row ∈ ft, ∀ x ∈ row, 0 ≤ x)
    (hex : ∃ row ∈ ft, ∃ x ∈ row, x ≠ 0) :
    0 < get_cutoff_LOD ft := by
  have hpos : ∀ x ∈ ft.flatten.filter (fun x => decide (x ≠ 0)), 0 < x := by
    intro x hx
    obtain ⟨hxf, hxd⟩ := List.mem_filter.mp hx
    obtain ⟨row, hrow, hxr⟩ := List.mem_flatten.mp hxf
    exact lt_of_le_of_ne (hnn row hrow x hxr) (Ne.symm (of_decide_eq_true hxd))
  have hne : ft.flatten.filter (fun x => decide (x ≠ 0)) ≠ [] := by
    obtain ⟨row, hrow, x, hxr, hx0⟩ := hex
    intro hembed
    have hxf : x ∈ ft.flatten.filter (fun x => decide (x ≠ 0)) :=
      List.mem_filter.mpr ⟨List.mem_flatten.mpr ⟨row, hrow, hxr⟩,
        decide_eq_true hx0⟩
    rw [hembed] at hxf
    exact List.not_mem_nil x hxf
  rw [get_cutoff_LOD]
  rcases hfl : ft.flatten.filter (fun x => decide (x ≠ 0)) with - | ⟨a, rest⟩
  · exact absurd hfl hne
  · exact foldl_min_pos (hpos a (hfl ▸ List.mem_cons_self a rest))
      (fun x hx => hpos x (hfl ▸ List.mem_cons_of_mem a hx))

/-- Cell-wise specification of one imputed row. -/
theorem impute_row_spec (draw : ℕ → ℚ) (cut : ℚ)
    (hd : ∀ j, 0 ≤ draw j ∧ draw j < cut) :
    ∀ (row : List ℚ) (j : ℕ),
      List.Forall₂ (fun x y => (x = 0 → 0 ≤ y ∧ y < cut) ∧ (x ≠ 0 → y = x))
        row (impute_row draw row j) := by
  intro row
  induction row with
  | nil => intro j; exact List.Forall₂.nil
  | cons x xs ih =>
    intro j
    simp only [impute_row]
    refine List.Forall₂.cons ⟨fun hx => ?_, fun hx => ?_⟩ (ih (j + 1))
    · rw [if_pos hx]
      exact hd j
    · rw [if_neg hx]

/-- Table-wise specification of the imputation traversal. -/
theorem impute_table_spec (draw : ℕ → ℕ → ℚ) (cut : ℚ)
    (hd : ∀ i j, 0 ≤ draw i j ∧ draw i j < cut) :
    ∀ (ft : List (List ℚ)) (i : ℕ),
      List.Forall₂ (List.Forall₂
          (fun x y => (x = 0 → 0 ≤ y ∧ y < cut) ∧ (x ≠ 0 → y = x)))
        ft (impute_table draw ft i) := by
  intro ft
  induction ft with
  | nil => intro i; exact List.Forall₂.nil
  | cons row rows ih =>
    intro i
    simp only [impute_table]
    exact List.Forall₂.cons (impute_row_spec (draw i) cut (hd i) row 0)
      (ih (i + 1))

/-- C8: imputation replaces every zero cell by a value in
`[0, cutoff_LOD)` and leaves every nonzero cell unchanged; on a table of
nonnegative intensities with at least one nonzero cell the computed
`cutoff_LOD` is strictly positive; and the displayed missing-value
fraction is computed from the pre-imputation table (the metric at
`src/pages/1_Data_Preparation.py:131` is evaluated before `ft` is
rebound to the imputed table at line 137). -/
theorem C8_imputation :
    ∀ (ft : List (List ℚ)) (draw : ℕ → ℕ → ℚ),
      (∀ i j, 0 ≤ draw i j ∧ draw i j < get_cutoff_LOD ft) →
      (∀ row ∈ ft, ∀ x ∈ row, 0 ≤ x) →
      (∃ row ∈ ft, ∃ x ∈ row, x ≠ 0) →
      0 < get_cutoff_LOD ft ∧
      List.Forall₂ (List.Forall₂ (fun x y =>
          (x = 0 → 0 ≤ y ∧ y < get_cutoff_LOD ft) ∧ (x ≠ 0 → y = x)))
        ft (impute_missing_values ft (get_cutoff_LOD ft) draw) ∧
      (data_preparation_impute ft draw).1 = missing_fraction ft := by
  intro ft draw hdraw hnn hex
  exact ⟨get_cutoff_LOD_pos hnn hex,
    impute_table_spec draw (get_cutoff_LOD ft) hdraw ft 0, rfl⟩

/-- Witness for C8 at a concrete 2×2 table with two zeros and the RNG
stream fixed at 1/2 (inside `[0, cutoff_LOD) = [0, 2)`). -/
theorem C8_imputation_witness :
    0 < get_cutoff_LOD [[0, 2], [4, 0]] ∧
    impute_missing_values [[0, 2], [4, 0]]
      (get_cutoff_LOD [[0, 2], [4, 0]]) (fun _ _ => 1/2)
      = [[1/2, 2], [4, 1/2]] := by
  have hcut : get_cutoff_LOD [[0, 2], [4, 0]] = 2 := by
    norm_num +decide [get_cutoff_LOD, List.filter_cons, min_def]
  refine ⟨(C8_imputation [[0, 2], [4, 0]] (fun _ _ => 1/2)
    (fun i j => by rw [hcut]; norm_num)
    (by intro row hrow x hx; fin_cases hrow <;> fin_cases hx <;> norm_num)
    ⟨[0, 2], by norm_num, 2, by norm_num, by norm_num⟩).1, ?_⟩
  norm_num [impute_missing_values, impute_table, impute_row]

/-- C9 fails on the code: `gen_ttest_data` is decorated `@st.cache_data`,
so its memoization key is exactly its explicit parameters
`(ttest_attribute, target_groups, paired)` — but the body reads
`st.session_state.data` and `st.session_state.md`
(`src/src/ttest.py:10-14`), which are not part of the key.  Two
invocations with identical explicit parameters but different session
metadata give different results (here even a different test: Student
with dof 4 versus Welch with dof 27/7), so the cached result can be
stale with respect to the cleaned tables and group assignments.
(`anova` at `src/src/anova.py:31-44` and `tukey` at
`src/src/anova.py:139-166` read `st.session_state` the same way.) -/
theorem C9_cache_key_incomplete :
    gen_ttest_data
      ⟨[("m1", [0, 2, 4, 0, 6, 6])],
       [[("g", "A")], [("g", "A")], [("g", "A")], [("g", "B")],
        [("g", "B")], [("g", "B")]]⟩ "g" ("A", "B") false ≠
    gen_ttest_data
      ⟨[("m1", [0, 2, 4, 0, 6, 6])],
       [[("g", "A")], [("g", "A")], [("g", "B")], [("g", "B")],
        [("g", "B")], [("g", "B")]]⟩ "g" ("A", "B") false := by
  have h1 : gen_ttest_data
      ⟨[("m1", [0, 2, 4, 0, 6, 6])],
       [[("g", "A")], [("g", "A")], [("g", "A")], [("g", "B")],
        [("g", "B")], [("g", "B")]]⟩ "g" ("A", "B") false
      = [("m1", ⟨4, false, false⟩)] := by
    norm_num +decide [gen_ttest_data, md_column, select_group, pg_ttest,
      welch_dof, svar, lmean, List.filter_cons]
  have h2 : gen_ttest_data
      ⟨[("m1", [0, 2, 4, 0, 6, 6])],
       [[("g", "A")], [("g", "A")], [("g", "B")], [("g", "B")],
        [("g", "B")], [("g", "B")]]⟩ "g" ("A", "B") false
      = [("m1", ⟨27/7, true, false⟩)] := by
    norm_num +decide [gen_ttest_data, md_column, select_group, pg_ttest,
      welch_dof, svar, lmean, List.filter_cons]
  rw [h1, h2]
  simp

/-- C10: every column of the `blanks` subtable is absent from the
`samples` subtable's columns — blanks are selected only from metadata
rows whose identifier is not among the chosen sample columns, so the two
column sets are disjoint. -/
theorem C10_blanks_samples_disjoint :
    ∀ (md : List MdRow) (sample_column sample_row bc br : String),
      ∀ c ∈ blank_columns md (sample_columns md sample_column sample_row)
          bc br,
        c ∉ sample_columns md sample_column sample_row := by
  intro md sc sr bc br c hc
  simp only [blank_columns, non_samples_md, List.mem_map,
    List.mem_filter] at hc
  obtain ⟨r, ⟨⟨hrmd, hrdec⟩, hrb⟩, rfl⟩ := hc
  exact of_decide_eq_true hrdec

/-- Witness for C10 at a concrete metadata table with one sample row and
one blank row. -/
theorem C10_blanks_samples_disjoint_witness :
    "b1" ∈ blank_columns
      [⟨"s1", [("type", "sample")]⟩, ⟨"b1", [("type", "blank")]⟩]
      (sample_columns
        [⟨"s1", [("type", "sample")]⟩, ⟨"b1", [("type", "blank")]⟩]
        "type" "sample") "type" "blank" ∧
    "b1" ∉ sample_columns
      [⟨"s1", [("type", "sample")]⟩, ⟨"b1", [("type", "blank")]⟩]
      "type" "sample" := by
  have hm : "b1" ∈ blank_columns
      [⟨"s1", [("type", "sample")]⟩, ⟨"b1", [("type", "blank")]⟩]
      (sample_columns
        [⟨"s1", [("type", "sample")]⟩, ⟨"b1", [("type", "blank")]⟩]
        "type" "sample") "type" "blank" := by
    simp +decide [blank_columns, non_samples_md, sample_columns, md_lookup,
      List.filter_cons]
  exact ⟨hm, C10_blanks_samples_disjoint
    [⟨"s1", [("type", "sample")]⟩, ⟨"b1", [("type", "blank")]⟩]
    "type" "sample" "type" "blank" "b1" hm⟩

end MetaboStats
